import Mathlib

/-!
Verification of the Vertex AI Search importer cloud function (`main.py`).

The handler `update_vertex_search` is embedded as a pure Lean function.
Process-wide startup configuration (the three environment variables read at
module load) is a `Config`; the Cloud Event payload is an `EventData` whose
`rest` field stands for the payload fields the handler never reads; the
Discovery Engine client is an oracle `ImportRequest → Except ClientError
Operation` supplied per invocation. The observable behaviour of one
invocation — the `print` lines, the `import_documents` submissions made, and
whether an exception escapes — is collected in a `RunResult`.
-/

/-- An environment variable value as `os.environ.get` returns it:
`none` when unset, otherwise the string (possibly empty). -/
abbrev EnvVar := Option String

/-- The three environment variables read at module load in `main.py`
(`PROJECT_ID`, `LOCATION`, `DATA_STORE_ID`). -/
structure Config where
  PROJECT_ID : EnvVar
  LOCATION : EnvVar
  DATA_STORE_ID : EnvVar
deriving Repr, DecidableEq

/-- The Cloud Event data payload. `bucket` and `name` are what
`data.get ("bucket")` and `data.get ("name")` return; `rest` stands for all
other key/value pairs of the payload, which the handler never touches. -/
structure EventData where
  bucket : Option String
  name : Option String
  rest : List (String × String)
deriving Repr, DecidableEq

/-- Python truthiness of an optional string, as tested by
`all([bucket_name, file_name, PROJECT_ID, LOCATION, DATA_STORE_ID])`:
`None` and the empty string are falsy. -/
def truthy : Option String → Bool
  | none => false
  | some s => !s.isEmpty

/-- `ReconciliationMode` of `ImportDocumentsRequest` in the Discovery Engine
API: INCREMENTAL adds and updates, FULL replaces the whole store. -/
inductive ReconciliationMode where
  | INCREMENTAL
  | FULL
deriving Repr, DecidableEq

/-- The fields of the `ImportDocumentsRequest` built in `main.py`: the parent
branch path, and the `GcsSource` (its `input_uris` and `data_schema`) together
with the reconciliation mode. -/
structure ImportRequest where
  parent : String
  input_uris : List String
  data_schema : String
  reconciliation_mode : ReconciliationMode
deriving Repr, DecidableEq

/-- Errors the `import_documents` call can raise: a `GoogleAPICallError`
(the class caught by the handler's `except` clause) or an exception of any
other class, each carried with its message text. -/
inductive ClientError where
  | googleAPICallError (msg : String)
  | otherError (msg : String)
deriving Repr, DecidableEq

/-- The part of the returned long-running operation the handler reads:
`operation.operation.name`, its identifier. -/
structure Operation where
  name : String
deriving Repr, DecidableEq

/-- The observable outcome of one invocation: the `print` lines in order, the
argument of each `import_documents` call made (in order), and the exception
escaping the handler (`none` when it returns normally). -/
structure RunResult where
  logs : List String
  requests : List ImportRequest
  raised : Option ClientError
deriving Repr, DecidableEq

/-- The characters of a string after its last `/` (the whole string when it
has none): the POSIX basename step of `os.path.splitext`. -/
def afterLastSlash (cs : List Char) : List Char :=
  ((cs.reverse).takeWhile (fun c => c ≠ '/')).reverse

/-- The final path component of a name, as a character list. -/
def baseOf (name : String) : List Char := afterLastSlash name.data

/-- The candidate extension of a final path component that contains a dot:
its last dot and everything after it. -/
def extChars (base : List Char) : List Char :=
  '.' :: ((base.reverse).takeWhile (fun c => c ≠ '.')).reverse

/-- What precedes the candidate extension in the final path component. -/
def rootChars (base : List Char) : List Char :=
  base.take (base.length - (extChars base).length)

/-- Model of CPython `os.path.splitext` on POSIX (separator `/`, no altsep),
returning only the extension component. The last dot of the final path
component starts the extension, except when every character of that component
before the last dot is itself a dot (then the extension is empty, as for
`".pdf"` or `"dir/..bashrc"`). -/
def splitextExt (p : String) : String :=
  let base := baseOf p
  if base.contains '.' then
    if (rootChars base).any (fun c => c ≠ '.') then String.mk (extChars base) else ""
  else ""

/-- Python `str.lower` restricted to ASCII (`Char.toLower`). The allow-set
holds only lowercase ASCII strings, so membership tests agree with full
Unicode lowercasing on every input that can pass them. -/
def lowerStr (s : String) : String := String.mk (s.data.map Char.toLower)

/-- `ALLOWED_EXTENSIONS` from `main.py` (a set there; order is irrelevant to
the membership test). -/
def ALLOWED_EXTENSIONS : List String :=
  [".html", ".pdf", ".docx", ".pptx", ".txt", ".xlsx"]

/-- `DocumentServiceClient.branch_path` of the Discovery Engine client
library: expands the resource template
`projects/P/locations/L/collections/default_collection/dataStores/D/branches/B`
(spec section 6 gives the same scheme). -/
def branch_path (project location data_store branch : String) : String :=
  "projects/" ++ project ++ "/locations/" ++ location ++
    "/collections/default_collection/dataStores/" ++ data_store ++
    "/branches/" ++ branch

/-- The GCS URI `main.py` builds for bucket `b` and object name `n`. -/
def gcsUri (b n : String) : String := "gs://" ++ b ++ "/" ++ n

/-- The log line of the missing-fields branch of `main.py`. -/
def missingLog : String :=
  "Error: Missing file details or environment variables (PROJECT_ID, LOCATION, DATA_STORE_ID)."

/-- The first log line of every branch that passes validation. -/
def processingLog (b n : String) : String := "Processing file: " ++ gcsUri b n

/-- The log line of the unsupported-extension branch. -/
def skipLog (n ext : String) : String :=
  "Skipping file '" ++ n ++ "' with unsupported extension '" ++ ext ++ "'."

/-- The log line naming the started operation's identifier. -/
def startedLog (opName : String) : String :=
  "Started Vertex AI Search import operation: " ++ opName

/-- The success log line naming the URI. -/
def successLog (uri : String) : String :=
  "Successfully triggered import for: " ++ uri

/-- The log line of the `except GoogleAPICallError` clause, naming the URI and
the error's text. -/
def apiErrorLog (uri msg : String) : String :=
  "Error calling Vertex AI Search API for file " ++ uri ++ ": " ++ msg

/-- The request `main.py` builds for bucket `b`, object name `n` and the three
configuration strings: parent from `branch_path` with branch
`"default_branch"`, a one-element `input_uris` holding `gs://b/n`, data schema
`"content"`, INCREMENTAL reconciliation. -/
def buildRequest (pid loc ds b n : String) : ImportRequest :=
  { parent := branch_path pid loc ds "default_branch"
    input_uris := ["gs://" ++ b ++ "/" ++ n]
    data_schema := "content"
    reconciliation_mode := ReconciliationMode.INCREMENTAL }

/-- The handler `update_vertex_search` of `main.py` as a pure function.
`client` is the behaviour of `document_service_client.import_documents` on
this invocation: `.ok` is a returned operation, `.error` a raised exception.
The `except GoogleAPICallError` clause logs and re-raises; an exception of any
other class propagates uncaught (so unlogged), exactly as in Python. -/
def update_vertex_search (cfg : Config) (data : EventData)
    (client : ImportRequest → Except ClientError Operation) : RunResult :=
  let bucket_name := data.bucket
  let file_name := data.name
  if !(truthy bucket_name && truthy file_name && truthy cfg.PROJECT_ID &&
      truthy cfg.LOCATION && truthy cfg.DATA_STORE_ID) then
    { logs := [missingLog]
      requests := []
      raised := none }
  else
    let b := bucket_name.getD ""
    let n := file_name.getD ""
    let extension := splitextExt n
    if !(ALLOWED_EXTENSIONS.contains (lowerStr extension)) then
      { logs := [processingLog b n, skipLog n extension]
        requests := []
        raised := none }
    else
      let request := buildRequest (cfg.PROJECT_ID.getD "") (cfg.LOCATION.getD "")
        (cfg.DATA_STORE_ID.getD "") b n
      match client request with
      | Except.ok op =>
        { logs := [processingLog b n, startedLog op.name, successLog (gcsUri b n)]
          requests := [request]
          raised := none }
      | Except.error (ClientError.googleAPICallError msg) =>
        { logs := [processingLog b n, apiErrorLog (gcsUri b n) msg]
          requests := [request]
          raised := some (ClientError.googleAPICallError msg) }
      | Except.error (ClientError.otherError msg) =>
        { logs := [processingLog b n]
          requests := [request]
          raised := some (ClientError.otherError msg) }

/-- A client that accepts every request, returning an operation named `o`. -/
def okClient (o : String) : ImportRequest → Except ClientError Operation :=
  fun _ => Except.ok { name := o }

/-- A fully populated configuration used by concrete instances. -/
def cfgEx : Config :=
  { PROJECT_ID := some "proj", LOCATION := some "global", DATA_STORE_ID := some "store" }

-- sanity checks of the embedding on concrete inputs
example : splitextExt "reports/q1.pdf" = ".pdf" := by decide
example : splitextExt ".pdf" = "" := by decide
example : splitextExt "dir/.docx" = "" := by decide
example : splitextExt "a..pdf" = ".pdf" := by decide
example : splitextExt "archive.tar.gz" = ".gz" := by decide
example : splitextExt "a.b/c" = "" := by decide
example : splitextExt "file." = "." := by decide
example : lowerStr ".PDF" = ".pdf" := by decide
example :
    (update_vertex_search cfgEx
      { bucket := some "my-bucket", name := some "reports/q1.pdf", rest := [] }
      (okClient "op-1")).requests =
      [buildRequest "proj" "global" "store" "my-bucket" "reports/q1.pdf"] := by decide
example :
    (update_vertex_search cfgEx
      { bucket := some "my-bucket", name := some "notes.md", rest := [] }
      (okClient "op-1")).requests = [] := by decide
example :
    (update_vertex_search { cfgEx with PROJECT_ID := some "" }
      { bucket := some "b", name := some "x.pdf", rest := [] }
      (okClient "op-1")).logs.length = 1 := by decide

/-! ### Characterization of each branch of the handler -/

/-- The `all([...])` guard of line 36 of `main.py`, as the handler tests it. -/
def validInput (cfg : Config) (data : EventData) : Bool :=
  truthy data.bucket && truthy data.name && truthy cfg.PROJECT_ID &&
    truthy cfg.LOCATION && truthy cfg.DATA_STORE_ID

theorem truthy_iff (o : Option String) : truthy o = true ↔ ∃ s, o = some s ∧ s ≠ "" := by
  cases o with
  | none => simp [truthy]
  | some s =>
    have h : s.isEmpty = false ↔ s ≠ "" := by
      constructor
      · intro he hs
        subst hs
        exact absurd he (by decide)
      · intro hne
        cases hh : s.isEmpty with
        | false => rfl
        | true => exact absurd ((String.isEmpty_iff s).mp hh) hne
    simp [truthy, h]

theorem truthy_eq_false_iff (o : Option String) :
    truthy o = false ↔ o = none ∨ o = some "" := by
  cases o with
  | none => simp [truthy]
  | some s => simp [truthy, String.isEmpty_iff]

theorem run_eq_missing (cfg : Config) (data : EventData)
    (client : ImportRequest → Except ClientError Operation)
    (h : validInput cfg data = false) :
    update_vertex_search cfg data client =
      { logs := [missingLog], requests := [], raised := none } := by
  have h' : (truthy data.bucket && truthy data.name && truthy cfg.PROJECT_ID &&
      truthy cfg.LOCATION && truthy cfg.DATA_STORE_ID) = false := h
  simp [update_vertex_search, h']

theorem run_eq_skip (cfg : Config) (data : EventData)
    (client : ImportRequest → Except ClientError Operation)
    (hv : validInput cfg data = true)
    (hext : ALLOWED_EXTENSIONS.contains (lowerStr (splitextExt (data.name.getD ""))) = false) :
    update_vertex_search cfg data client =
      { logs := [processingLog (data.bucket.getD "") (data.name.getD ""),
          skipLog (data.name.getD "") (splitextExt (data.name.getD ""))],
        requests := [], raised := none } := by
  have h' : (truthy data.bucket && truthy data.name && truthy cfg.PROJECT_ID &&
      truthy cfg.LOCATION && truthy cfg.DATA_STORE_ID) = true := hv
  simp only [update_vertex_search]
  rw [h', hext]
  simp

theorem run_eq_submit (cfg : Config) (data : EventData)
    (client : ImportRequest → Except ClientError Operation)
    (hv : validInput cfg data = true)
    (hext : ALLOWED_EXTENSIONS.contains (lowerStr (splitextExt (data.name.getD ""))) = true) :
    update_vertex_search cfg data client =
      (let b := data.bucket.getD ""
       let n := data.name.getD ""
       let request := buildRequest (cfg.PROJECT_ID.getD "") (cfg.LOCATION.getD "")
         (cfg.DATA_STORE_ID.getD "") b n
       match client request with
       | Except.ok op =>
         { logs := [processingLog b n, startedLog op.name, successLog (gcsUri b n)]
           requests := [request], raised := none }
       | Except.error (ClientError.googleAPICallError msg) =>
         { logs := [processingLog b n, apiErrorLog (gcsUri b n) msg]
           requests := [request], raised := some (ClientError.googleAPICallError msg) }
       | Except.error (ClientError.otherError msg) =>
         { logs := [processingLog b n]
           requests := [request], raised := some (ClientError.otherError msg) }) := by
  have h' : (truthy data.bucket && truthy data.name && truthy cfg.PROJECT_ID &&
      truthy cfg.LOCATION && truthy cfg.DATA_STORE_ID) = true := hv
  simp only [update_vertex_search]
  rw [h', hext]
  simp

/-! ### Support lemmas on strings and lists -/

/-- A Boolean suffix test on strings via their character lists. -/
def strEndsWith (s suffix : String) : Bool := suffix.data.isSuffixOf s.data

theorem strEndsWith_append (a suffix : String) : strEndsWith (a ++ suffix) suffix = true := by
  simp [strEndsWith, List.isSuffixOf, String.data_append]

theorem lowerStr_empty : lowerStr "" = "" := rfl

theorem takeWhile_append_of_all (p : Char → Bool) (l r : List Char)
    (h : ∀ c ∈ l, p c = true) :
    (l ++ r).takeWhile p = l ++ r.takeWhile p := by
  induction l with
  | nil => simp
  | cons a t ih =>
    have ha := h a (by simp)
    simp [List.takeWhile_cons, ha, ih (fun c hc => h c (by simp [hc]))]

theorem any_ne_dot_eq_not_all (l : List Char) :
    (l.any fun c => c ≠ '.') = !(l.all fun c => c = '.') := by
  induction l with
  | nil => rfl
  | cons a t ih => cases h : decide (a = '.') <;> simp_all [List.any_cons, List.all_cons]

/-! ### The spec's description of the extension, and where the code deviates -/

/-- The extension as section 4.1 of the spec words it, for comparison with
`splitextExt`: the suffix of the name after the last path separator and the
last dot (dot included, as the allow-set's entries are dotted), lower-cased;
empty when the final path component has no dot at all. -/
def specExtension (name : String) : String :=
  let base := baseOf name
  if base.contains '.' then lowerStr (String.mk (extChars base)) else ""

/-- The names on which `os.path.splitext` yields no extension although the
final path component has a dot: everything before its last dot is itself a
dot (e.g. `".pdf"`, `"dir/..gz"`), or there is no dot. -/
def extensionDegenerate (name : String) : Bool :=
  let base := baseOf name
  !(base.contains '.') || (rootChars base).all (fun c => c = '.')

theorem splitextExt_eq_specExtension (name : String) :
    lowerStr (splitextExt name) =
      if extensionDegenerate name then "" else specExtension name := by
  simp only [splitextExt, specExtension, extensionDegenerate, any_ne_dot_eq_not_all]
  cases hc : (baseOf name).contains '.' with
  | false => simp [hc, lowerStr_empty]
  | true =>
    cases ha : (rootChars (baseOf name)).all (fun c => c = '.') with
    | false => simp [hc, ha, lowerStr_empty]
    | true => simp [hc, ha, lowerStr_empty]

/-- For a final path component that starts with a dot and has no further dot,
`os.path.splitext` finds no extension. -/
theorem splitextExt_dot_leading (n : String) (t : List Char)
    (hbase : baseOf n = '.' :: t)
    (ht : t.all (fun c => c ≠ '.') = true) :
    splitextExt n = "" := by
  have hrev : ∀ c ∈ t.reverse, (fun c => decide (c ≠ '.')) c = true := by
    intro c hc
    simpa using List.all_eq_true.mp ht c (List.mem_reverse.mp hc)
  have hext : extChars ('.' :: t) = '.' :: t := by
    simp only [extChars, List.reverse_cons]
    rw [takeWhile_append_of_all _ t.reverse ['.'] hrev]
    simp [List.takeWhile_cons]
  have hroot : rootChars ('.' :: t) = [] := by
    simp [rootChars, hext]
  simp [splitextExt, hbase, hroot]

/-! ### Further helpers used by the claim theorems -/

theorem contains_eq_true_iff_mem (x : String) (l : List String) :
    l.contains x = true ↔ x ∈ l := by
  simp

theorem strEndsWith_branch_path (pid loc ds : String) :
    strEndsWith (branch_path pid loc ds "default_branch") "/branches/default_branch" = true := by
  have hlit : ("/branches/" : String) ++ "default_branch" = "/branches/default_branch" := rfl
  simp only [branch_path]
  rw [String.append_assoc, hlit]
  exact strEndsWith_append _ _

/-- Whether some log line has `needle` as a contiguous substring. -/
def logMentions (logs : List String) (needle : String) : Bool :=
  logs.any (fun l => decide (needle.data <:+: l.data))

theorem run_requests_length_le_one (cfg : Config) (data : EventData)
    (client : ImportRequest → Except ClientError Operation) :
    (update_vertex_search cfg data client).requests.length ≤ 1 := by
  by_cases hv : validInput cfg data = true
  · by_cases hext : ALLOWED_EXTENSIONS.contains
        (lowerStr (splitextExt (data.name.getD ""))) = true
    · rw [run_eq_submit cfg data client hv hext]
      cases hcall : client (buildRequest (cfg.PROJECT_ID.getD "") (cfg.LOCATION.getD "")
          (cfg.DATA_STORE_ID.getD "") (data.bucket.getD "") (data.name.getD "")) with
      | ok op => simp [hcall]
      | error e => cases e <;> simp [hcall]
    · have hext' : ALLOWED_EXTENSIONS.contains
          (lowerStr (splitextExt (data.name.getD ""))) = false := by simpa using hext
      rw [run_eq_skip cfg data client hv hext']
      simp
  · have hv' : validInput cfg data = false := by simpa using hv
    rw [run_eq_missing cfg data client hv']
    simp

theorem run_logs_length_bounds (cfg : Config) (data : EventData)
    (client : ImportRequest → Except ClientError Operation) :
    1 ≤ (update_vertex_search cfg data client).logs.length ∧
      (update_vertex_search cfg data client).logs.length ≤ 3 := by
  by_cases hv : validInput cfg data = true
  · by_cases hext : ALLOWED_EXTENSIONS.contains
        (lowerStr (splitextExt (data.name.getD ""))) = true
    · rw [run_eq_submit cfg data client hv hext]
      cases hcall : client (buildRequest (cfg.PROJECT_ID.getD "") (cfg.LOCATION.getD "")
          (cfg.DATA_STORE_ID.getD "") (data.bucket.getD "") (data.name.getD "")) with
      | ok op => simp [hcall]
      | error e => cases e <;> simp [hcall]
    · have hext' : ALLOWED_EXTENSIONS.contains
          (lowerStr (splitextExt (data.name.getD ""))) = false := by simpa using hext
      rw [run_eq_skip cfg data client hv hext']
      simp
  · have hv' : validInput cfg data = false := by simpa using hv
    rw [run_eq_missing cfg data client hv']
    simp

/-! ### The claims -/

/-- C1: an import request is constructed and submitted exactly when `bucket`,
`name`, `PROJECT_ID`, `LOCATION` and `DATA_STORE_ID` are all present and
non-empty and the object name's lower-cased extension lies in the fixed
allow-set; in every other case no `import_documents` call is made. -/
theorem c1_submission_iff_valid_and_allowed (cfg : Config) (data : EventData)
    (client : ImportRequest → Except ClientError Operation) :
    (update_vertex_search cfg data client).requests ≠ [] ↔
      ((∃ s, data.bucket = some s ∧ s ≠ "") ∧ (∃ s, data.name = some s ∧ s ≠ "") ∧
       (∃ s, cfg.PROJECT_ID = some s ∧ s ≠ "") ∧ (∃ s, cfg.LOCATION = some s ∧ s ≠ "") ∧
       (∃ s, cfg.DATA_STORE_ID = some s ∧ s ≠ "") ∧
       lowerStr (splitextExt (data.name.getD "")) ∈ ALLOWED_EXTENSIONS) := by
  constructor
  · intro hne
    by_cases hv : validInput cfg data = true
    · by_cases hext : ALLOWED_EXTENSIONS.contains
          (lowerStr (splitextExt (data.name.getD ""))) = true
      · have hv' := hv
        simp only [validInput, Bool.and_eq_true] at hv'
        obtain ⟨⟨⟨⟨h1, h2⟩, h3⟩, h4⟩, h5⟩ := hv'
        exact ⟨(truthy_iff _).mp h1, (truthy_iff _).mp h2, (truthy_iff _).mp h3,
          (truthy_iff _).mp h4, (truthy_iff _).mp h5,
          (contains_eq_true_iff_mem _ _).mp hext⟩
      · have hext' : ALLOWED_EXTENSIONS.contains
            (lowerStr (splitextExt (data.name.getD ""))) = false := by simpa using hext
        rw [run_eq_skip cfg data client hv hext'] at hne
        exact absurd rfl hne
    · have hv' : validInput cfg data = false := by simpa using hv
      rw [run_eq_missing cfg data client hv'] at hne
      exact absurd rfl hne
  · rintro ⟨hb, hn, hp, hl, hd, hmem⟩
    have hv : validInput cfg data = true := by
      simp only [validInput, Bool.and_eq_true]
      exact ⟨⟨⟨⟨(truthy_iff _).mpr hb, (truthy_iff _).mpr hn⟩, (truthy_iff _).mpr hp⟩,
        (truthy_iff _).mpr hl⟩, (truthy_iff _).mpr hd⟩
    have hext : ALLOWED_EXTENSIONS.contains
        (lowerStr (splitextExt (data.name.getD ""))) = true :=
      (contains_eq_true_iff_mem _ _).mpr hmem
    rw [run_eq_submit cfg data client hv hext]
    cases hcall : client (buildRequest (cfg.PROJECT_ID.getD "") (cfg.LOCATION.getD "")
        (cfg.DATA_STORE_ID.getD "") (data.bucket.getD "") (data.name.getD "")) with
    | ok op => simp [hcall]
    | error e => cases e <;> simp [hcall]

/-- C2: every invocation that reaches submission submits the request with the
one-element URI list `[gs://bucket/name]`, data schema `content`, INCREMENTAL
reconciliation and a parent composed by `branch_path` from the three
configuration values, ending in `/branches/default_branch`. -/
theorem c2_request_contents (cfg : Config) (data : EventData)
    (client : ImportRequest → Except ClientError Operation) (b n pid loc ds : String)
    (hb : data.bucket = some b) (hn : data.name = some n)
    (hp : cfg.PROJECT_ID = some pid) (hl : cfg.LOCATION = some loc)
    (hd : cfg.DATA_STORE_ID = some ds)
    (hb0 : b ≠ "") (hn0 : n ≠ "") (hp0 : pid ≠ "") (hl0 : loc ≠ "") (hd0 : ds ≠ "")
    (hext : ALLOWED_EXTENSIONS.contains (lowerStr (splitextExt n)) = true) :
    (update_vertex_search cfg data client).requests = [buildRequest pid loc ds b n] ∧
    (buildRequest pid loc ds b n).input_uris = ["gs://" ++ b ++ "/" ++ n] ∧
    (buildRequest pid loc ds b n).data_schema = "content" ∧
    (buildRequest pid loc ds b n).reconciliation_mode = ReconciliationMode.INCREMENTAL ∧
    (buildRequest pid loc ds b n).parent = branch_path pid loc ds "default_branch" ∧
    strEndsWith (buildRequest pid loc ds b n).parent "/branches/default_branch" = true := by
  have hv : validInput cfg data = true := by
    simp only [validInput, Bool.and_eq_true]
    exact ⟨⟨⟨⟨(truthy_iff _).mpr ⟨b, hb, hb0⟩, (truthy_iff _).mpr ⟨n, hn, hn0⟩⟩,
      (truthy_iff _).mpr ⟨pid, hp, hp0⟩⟩, (truthy_iff _).mpr ⟨loc, hl, hl0⟩⟩,
      (truthy_iff _).mpr ⟨ds, hd, hd0⟩⟩
  have hext' : ALLOWED_EXTENSIONS.contains
      (lowerStr (splitextExt (data.name.getD ""))) = true := by
    rw [hn]
    exact hext
  have hrun := run_eq_submit cfg data client hv hext'
  simp only [hb, hn, hp, hl, hd, Option.getD_some] at hrun
  refine ⟨?_, rfl, rfl, rfl, rfl, strEndsWith_branch_path pid loc ds⟩
  rw [hrun]
  cases hcall : client (buildRequest pid loc ds b n) with
  | ok op => simp [hcall]
  | error e => cases e <;> simp [hcall]

/-- C2 witness: the concrete instance of the spec, bucket `my-bucket` and
name `reports/q1.pdf`. -/
theorem c2_request_contents_witness :
    (update_vertex_search cfgEx
        { bucket := some "my-bucket", name := some "reports/q1.pdf", rest := [] }
        (okClient "op-1")).requests =
      [buildRequest "proj" "global" "store" "my-bucket" "reports/q1.pdf"] ∧
    (buildRequest "proj" "global" "store" "my-bucket" "reports/q1.pdf").input_uris =
      ["gs://my-bucket/reports/q1.pdf"] ∧
    (buildRequest "proj" "global" "store" "my-bucket" "reports/q1.pdf").data_schema =
      "content" ∧
    (buildRequest "proj" "global" "store" "my-bucket" "reports/q1.pdf").reconciliation_mode =
      ReconciliationMode.INCREMENTAL ∧
    strEndsWith (buildRequest "proj" "global" "store" "my-bucket" "reports/q1.pdf").parent
      "/branches/default_branch" = true := by
  have h := c2_request_contents cfgEx
    { bucket := some "my-bucket", name := some "reports/q1.pdf", rest := [] }
    (okClient "op-1") "my-bucket" "reports/q1.pdf" "proj" "global" "store"
    rfl rfl rfl rfl rfl (by decide) (by decide) (by decide) (by decide) (by decide)
    (by decide)
  exact ⟨h.1, by decide, h.2.2.1, h.2.2.2.1, h.2.2.2.2.2⟩

/-- The event used by concrete failure instances: a valid, allowed `.pdf`. -/
def evPdf : EventData := { bucket := some "b", name := some "doc.pdf", rest := [] }

/-- A client that raises an exception that is not a `GoogleAPICallError`. -/
def otherFailClient : ImportRequest → Except ClientError Operation :=
  fun _ => Except.error (ClientError.otherError "retry budget exhausted")

/-- A client that raises a `GoogleAPICallError`. -/
def apiFailClient : ImportRequest → Except ClientError Operation :=
  fun _ => Except.error (ClientError.googleAPICallError "quota exceeded")

/-- C3 counterexample: when `import_documents` raises an exception that is not
a `GoogleAPICallError`, the failure propagates but no log line mentions the
failure detail (only the pre-submission processing line is printed), so the
claim's "logs an error naming the offending URI and the failure detail" fails
for that failure. -/
theorem c3_counterexample :
    (update_vertex_search cfgEx evPdf otherFailClient).raised =
      some (ClientError.otherError "retry budget exhausted") ∧
    (update_vertex_search cfgEx evPdf otherFailClient).logs =
      [processingLog "b" "doc.pdf"] ∧
    logMentions (update_vertex_search cfgEx evPdf otherFailClient).logs
      "retry budget exhausted" = false := by decide

/-- C3 (amended): every failure raised by `import_documents` propagates out of
the handler unswallowed; when the failure is a `GoogleAPICallError` the
handler first logs an error line naming the URI and the failure detail, while
a failure of any other class propagates with no error log. -/
theorem c3_failure_logging_and_reraise (cfg : Config) (data : EventData)
    (client : ImportRequest → Except ClientError Operation)
    (b n pid loc ds : String) (e : ClientError)
    (hb : data.bucket = some b) (hn : data.name = some n)
    (hp : cfg.PROJECT_ID = some pid) (hl : cfg.LOCATION = some loc)
    (hd : cfg.DATA_STORE_ID = some ds)
    (hb0 : b ≠ "") (hn0 : n ≠ "") (hp0 : pid ≠ "") (hl0 : loc ≠ "") (hd0 : ds ≠ "")
    (hext : ALLOWED_EXTENSIONS.contains (lowerStr (splitextExt n)) = true)
    (hcall : client (buildRequest pid loc ds b n) = Except.error e) :
    (update_vertex_search cfg data client).raised = some e ∧
    (update_vertex_search cfg data client).logs =
      (match e with
       | ClientError.googleAPICallError msg => [processingLog b n, apiErrorLog (gcsUri b n) msg]
       | ClientError.otherError _ => [processingLog b n]) := by
  have hv : validInput cfg data = true := by
    simp only [validInput, Bool.and_eq_true]
    exact ⟨⟨⟨⟨(truthy_iff _).mpr ⟨b, hb, hb0⟩, (truthy_iff _).mpr ⟨n, hn, hn0⟩⟩,
      (truthy_iff _).mpr ⟨pid, hp, hp0⟩⟩, (truthy_iff _).mpr ⟨loc, hl, hl0⟩⟩,
      (truthy_iff _).mpr ⟨ds, hd, hd0⟩⟩
  have hext' : ALLOWED_EXTENSIONS.contains
      (lowerStr (splitextExt (data.name.getD ""))) = true := by
    rw [hn]
    exact hext
  have hrun := run_eq_submit cfg data client hv hext'
  simp only [hb, hn, hp, hl, hd, Option.getD_some] at hrun
  rw [hrun]
  rcases e with msg | msg <;> simp [hcall]

/-- C3 witness: a `GoogleAPICallError` is logged with the URI and detail and
re-raised. -/
theorem c3_failure_logging_and_reraise_witness :
    (update_vertex_search cfgEx evPdf apiFailClient).raised =
      some (ClientError.googleAPICallError "quota exceeded") ∧
    (update_vertex_search cfgEx evPdf apiFailClient).logs =
      [processingLog "b" "doc.pdf", apiErrorLog (gcsUri "b" "doc.pdf") "quota exceeded"] := by
  have h := c3_failure_logging_and_reraise cfgEx evPdf apiFailClient
    "b" "doc.pdf" "proj" "global" "store"
    (ClientError.googleAPICallError "quota exceeded")
    rfl rfl rfl rfl rfl (by decide) (by decide) (by decide) (by decide) (by decide)
    (by decide) rfl
  exact ⟨h.1, h.2⟩

theorem truthy_none : truthy none = false := rfl

theorem truthy_some_empty : truthy (some "") = false := by decide

/-- C4: when `bucket`, `name` or any of the three configuration values is
missing (`None`) or empty, the handler logs the configuration error line and
returns normally, with no submission and no raised exception. -/
theorem c4_missing_fields_noop (cfg : Config) (data : EventData)
    (client : ImportRequest → Except ClientError Operation)
    (h : data.bucket = none ∨ data.bucket = some "" ∨
      data.name = none ∨ data.name = some "" ∨
      cfg.PROJECT_ID = none ∨ cfg.PROJECT_ID = some "" ∨
      cfg.LOCATION = none ∨ cfg.LOCATION = some "" ∨
      cfg.DATA_STORE_ID = none ∨ cfg.DATA_STORE_ID = some "") :
    update_vertex_search cfg data client =
      { logs := [missingLog], requests := [], raised := none } := by
  apply run_eq_missing
  rcases h with h | h | h | h | h | h | h | h | h | h <;>
    simp [validInput, h, truthy_none, truthy_some_empty]

/-- C4 witness: with `LOCATION` unset, the invocation is a logged no-op. -/
theorem c4_missing_fields_noop_witness :
    update_vertex_search
      { PROJECT_ID := some "proj", LOCATION := none, DATA_STORE_ID := some "store" }
      evPdf (okClient "op-1") =
      { logs := [missingLog], requests := [], raised := none } :=
  c4_missing_fields_noop _ _ _ (by decide)

/-- C5: an event with non-empty bucket, name and configuration whose object
name's extension matches the allow-set case-insensitively leads to exactly one
submission to the indexing client. -/
theorem c5_case_insensitive_submission (cfg : Config) (data : EventData)
    (client : ImportRequest → Except ClientError Operation) (b n pid loc ds : String)
    (hb : data.bucket = some b) (hn : data.name = some n)
    (hp : cfg.PROJECT_ID = some pid) (hl : cfg.LOCATION = some loc)
    (hd : cfg.DATA_STORE_ID = some ds)
    (hb0 : b ≠ "") (hn0 : n ≠ "") (hp0 : pid ≠ "") (hl0 : loc ≠ "") (hd0 : ds ≠ "")
    (hext : lowerStr (splitextExt n) ∈ ALLOWED_EXTENSIONS) :
    (update_vertex_search cfg data client).requests.length = 1 := by
  have hv : validInput cfg data = true := by
    simp only [validInput, Bool.and_eq_true]
    exact ⟨⟨⟨⟨(truthy_iff _).mpr ⟨b, hb, hb0⟩, (truthy_iff _).mpr ⟨n, hn, hn0⟩⟩,
      (truthy_iff _).mpr ⟨pid, hp, hp0⟩⟩, (truthy_iff _).mpr ⟨loc, hl, hl0⟩⟩,
      (truthy_iff _).mpr ⟨ds, hd, hd0⟩⟩
  have hext' : ALLOWED_EXTENSIONS.contains
      (lowerStr (splitextExt (data.name.getD ""))) = true := by
    rw [hn]
    exact (contains_eq_true_iff_mem _ _).mpr hext
  rw [run_eq_submit cfg data client hv hext']
  cases hcall : client (buildRequest (cfg.PROJECT_ID.getD "") (cfg.LOCATION.getD "")
      (cfg.DATA_STORE_ID.getD "") (data.bucket.getD "") (data.name.getD "")) with
  | ok op => simp [hcall]
  | error e => cases e <;> simp [hcall]

/-- C5 witness: the upper-cased name `Report.PDF` is submitted. -/
theorem c5_case_insensitive_submission_witness :
    (update_vertex_search cfgEx
      { bucket := some "b", name := some "Report.PDF", rest := [] }
      (okClient "op-1")).requests.length = 1 :=
  c5_case_insensitive_submission cfgEx
    { bucket := some "b", name := some "Report.PDF", rest := [] }
    (okClient "op-1") "b" "Report.PDF" "proj" "global" "store"
    rfl rfl rfl rfl rfl (by decide) (by decide) (by decide) (by decide) (by decide)
    (by decide)

/-- C6 counterexample: for the name `".pdf"` the extension the code compares
is the empty string, while the spec-described suffix after the last path
separator and last dot is `".pdf"` — which moreover lies in the allow-set —
so the claimed equality of the two derivations fails. -/
theorem c6_counterexample :
    lowerStr (splitextExt ".pdf") = "" ∧
    specExtension ".pdf" = ".pdf" ∧
    lowerStr (splitextExt ".pdf") ≠ specExtension ".pdf" ∧
    specExtension ".pdf" ∈ ALLOWED_EXTENSIONS := by decide

/-- C6 (amended): the extension used for the allow-set comparison equals the
spec-described lower-cased suffix after the last path separator and last dot,
except when every character of the final path component before its last dot is
itself a dot (in particular when the component starts with its only dot), in
which case it is empty; and on every validated invocation whose name's
lower-cased computed extension is not in the allow-set, no submission occurs
and the handler logs the processing line and a skip line naming the file and
the extension. -/
theorem c6_extension_derivation_and_skip :
    (∀ name : String, lowerStr (splitextExt name) =
      if extensionDegenerate name then "" else specExtension name) ∧
    (∀ (cfg : Config) (data : EventData)
      (client : ImportRequest → Except ClientError Operation),
      validInput cfg data = true →
      ALLOWED_EXTENSIONS.contains (lowerStr (splitextExt (data.name.getD ""))) = false →
      update_vertex_search cfg data client =
        { logs := [processingLog (data.bucket.getD "") (data.name.getD ""),
            skipLog (data.name.getD "") (splitextExt (data.name.getD ""))],
          requests := [], raised := none }) :=
  ⟨splitextExt_eq_specExtension, run_eq_skip⟩

/-- C6 witness: a regular name obeys the derivation rule, and an unsupported
`.md` file is skipped with the skip log line and no submission. -/
theorem c6_extension_derivation_and_skip_witness :
    lowerStr (splitextExt "dir/Q1.PDF") =
      (if extensionDegenerate "dir/Q1.PDF" then "" else specExtension "dir/Q1.PDF") ∧
    update_vertex_search cfgEx
      { bucket := some "b", name := some "notes.md", rest := [] } (okClient "op-1") =
      { logs := [processingLog "b" "notes.md", skipLog "notes.md" ".md"],
        requests := [], raised := none } := by
  refine ⟨c6_extension_derivation_and_skip.1 "dir/Q1.PDF", ?_⟩
  have h := c6_extension_derivation_and_skip.2 cfgEx
    { bucket := some "b", name := some "notes.md", rest := [] } (okClient "op-1")
    (by decide) (by decide)
  simpa using h

/-- C7 counterexample: on a successful submission the handler prints three log
lines (processing, started operation, success), not exactly one. -/
theorem c7_counterexample :
    (update_vertex_search cfgEx evPdf (okClient "op-1")).requests.length = 1 ∧
    (update_vertex_search cfgEx evPdf (okClient "op-1")).logs.length = 3 := by decide

/-- C7 (amended): every invocation makes at most one outbound call, and every
branch produces at least one and at most three log lines (one for missing
fields, two for a skip or a logged API error, three for success, one for a
non-API failure). -/
theorem c7_call_and_log_bounds (cfg : Config) (data : EventData)
    (client : ImportRequest → Except ClientError Operation) :
    (update_vertex_search cfg data client).requests.length ≤ 1 ∧
    1 ≤ (update_vertex_search cfg data client).logs.length ∧
    (update_vertex_search cfg data client).logs.length ≤ 3 :=
  ⟨run_requests_length_le_one cfg data client, run_logs_length_bounds cfg data client⟩

/-- C8: the handler never calls `import_documents` more than once per
invocation. -/
theorem c8_at_most_one_submission (cfg : Config) (data : EventData)
    (client : ImportRequest → Except ClientError Operation) :
    (update_vertex_search cfg data client).requests.length ≤ 1 :=
  run_requests_length_le_one cfg data client

/-- C9: when the final path component of the name begins with a dot and has no
other dot, the computed extension is empty, so even though the dotted suffix
itself is in the allow-set, the file is skipped and nothing is submitted. -/
theorem c9_dot_leading_basename_skipped (cfg : Config) (data : EventData)
    (client : ImportRequest → Except ClientError Operation) (t : List Char)
    (hv : validInput cfg data = true)
    (hbase : baseOf (data.name.getD "") = '.' :: t)
    (ht : t.all (fun c => c ≠ '.') = true)
    (hin : lowerStr (String.mk ('.' :: t)) ∈ ALLOWED_EXTENSIONS) :
    splitextExt (data.name.getD "") = "" ∧
    update_vertex_search cfg data client =
      { logs := [processingLog (data.bucket.getD "") (data.name.getD ""),
          skipLog (data.name.getD "") ""],
        requests := [], raised := none } := by
  have hsplit := splitextExt_dot_leading _ t hbase ht
  refine ⟨hsplit, ?_⟩
  have hext : ALLOWED_EXTENSIONS.contains
      (lowerStr (splitextExt (data.name.getD ""))) = false := by
    rw [hsplit, lowerStr_empty]
    decide
  rw [run_eq_skip cfg data client hv hext, hsplit]

/-- C9 witness: the name `".pdf"` is skipped with no submission. -/
theorem c9_dot_leading_basename_skipped_witness :
    splitextExt ".pdf" = "" ∧
    update_vertex_search cfgEx
      { bucket := some "b", name := some ".pdf", rest := [] } (okClient "op-1") =
      { logs := [processingLog "b" ".pdf", skipLog ".pdf" ""],
        requests := [], raised := none } :=
  c9_dot_leading_basename_skipped cfgEx
    { bucket := some "b", name := some ".pdf", rest := [] } (okClient "op-1")
    ('p' :: 'd' :: 'f' :: []) (by decide) (by decide) (by decide) (by decide)

/-- C10: the handler is deterministic up to the client's response and reads
nothing from the event but `bucket` and `name`: two payloads agreeing on those
fields produce identical outcomes under the same configuration and client,
and the model carries no state between invocations. -/
theorem c10_deterministic_in_bucket_and_name (cfg : Config)
    (client : ImportRequest → Except ClientError Operation) (d1 d2 : EventData)
    (hb : d1.bucket = d2.bucket) (hn : d1.name = d2.name) :
    update_vertex_search cfg d1 client = update_vertex_search cfg d2 client := by
  simp only [update_vertex_search, hb, hn]

/-- C10 witness: a payload with an extra, unread field produces the same
outcome as the bare payload. -/
theorem c10_deterministic_in_bucket_and_name_witness :
    update_vertex_search cfgEx
      { bucket := some "b", name := some "doc.pdf", rest := [] } (okClient "op-1") =
    update_vertex_search cfgEx
      { bucket := some "b", name := some "doc.pdf",
        rest := [("generation", "123"), ("size", "888")] } (okClient "op-1") :=
  c10_deterministic_in_bucket_and_name cfgEx (okClient "op-1") _ _ rfl rfl
